import Mathlib

/-!
Verification development for the Ripple on-device gateway.

The definitions below are a shallow embedding of the Rust sources:

* `src/device/thunder_ripple_sdk/src/events/thunder_event_processor.rs`
* `src/device/thunder_ripple_sdk/src/bootstrap/setup_thunder_pool_step.rs`
* `src/core/main/src/firebolt/rpc_router.rs`
* `src/core/main/src/firebolt/handlers/localization_rpc.rs`
* `src/core/main/src/bootstrap/boot.rs`
* `src/core/sdk/src/api/manifest/app_library.rs`
* `src/core/sdk/src/api/caps.rs`
* `src/core/sdk/src/api/distributor/distributor_permissions.rs`
* `src/core/sdk/src/api/firebolt/fb_advertising.rs`
* `src/core/sdk/src/api/device/device_info_request.rs`
* `src/core/sdk/src/api/device/device_wifi.rs`
* `src/core/sdk/src/api/device/device_browser.rs`

Rust `HashMap<String, V>` values are embedded as association lists with
insert-overwrite semantics, observed through `mapGet`.  `serde_json::Value`
is embedded as the inductive `Json` (arrays are folded away: no routine
embedded here ever constructs or inspects a JSON array).  Asynchronous
functions are embedded as pure state-passing functions; the set of extn
requests a routine issues is returned explicitly so that theorems can talk
about which requests were (not) sent.
-/

namespace Ripple

/-! ## JSON values

Embedding of `serde_json::Value` restricted to the shapes the verified
routines construct and inspect (null, booleans, integers, strings and
objects).  Objects are a mutual inductive so that decidable equality can be
derived and evaluated by the kernel. -/

mutual

inductive Json where
  | null
  | bool (b : Bool)
  | num (n : Int)
  | str (s : String)
  | obj (members : JsonObj)
deriving DecidableEq, Repr

inductive JsonObj where
  | nil
  | cons (key : String) (val : Json) (tl : JsonObj)
deriving DecidableEq, Repr

end

/-- Field lookup in a JSON object (first occurrence wins, as in
`serde_json::Map::get`). -/
def JsonObj.lookup : JsonObj → String → Option Json
  | .nil, _ => none
  | .cons k v tl, key => if k = key then some v else tl.lookup key

/-! ## String-keyed maps

`HashMap<String, V>` is embedded as an association list whose keys are kept
unique by `mapInsert`; `mapGet` is the observation. -/

/-- `HashMap::get`. -/
def mapGet {α : Type} : List (String × α) → String → Option α
  | [], _ => none
  | (k, v) :: rest, key => if k = key then some v else mapGet rest key

/-- `HashMap::remove` (drops every pair with the key). -/
def mapRemove {α : Type} : List (String × α) → String → List (String × α)
  | [], _ => []
  | (k, v) :: rest, key =>
    if k = key then mapRemove rest key else (k, v) :: mapRemove rest key

/-- `HashMap::insert`: replaces any existing binding of the key. -/
def mapInsert {α : Type} (m : List (String × α)) (key : String) (v : α) :
    List (String × α) :=
  mapRemove m key ++ [(key, v)]

/-! ## Error and status taxonomy

`RippleError` is the error enum of the SDK (`utils::error::RippleError`,
not under `src/`); its variants are exactly the taxonomy listed in spec
section 7.  `ExtnStatus` carries the `Ready`/`Error` lifecycle events used
by the pool bootstrap step. -/

inductive RippleError where
  | NoContract
  | SendFailure
  | CallbackClosed
  | Timeout
  | InvalidInput
  | InvalidOutput
  | BootstrapError
deriving DecidableEq, Repr

inductive ExtnStatus where
  | Ready
  | Error
deriving DecidableEq, Repr

/-! ## Thunder event processor

From `src/device/thunder_ripple_sdk/src/events/thunder_event_processor.rs`.
The `request`, `handle`, `is_valid` and `callback_type` fields of
`ThunderEventHandler` are function pointers / subscription parameters that
none of the verified operations branch on; the embedding keeps the fields
the operations read and write: `listeners` and `id`. -/

structure ThunderEventHandler where
  listeners : List String
  id : String
deriving DecidableEq, Repr

/-- `ExtnMessage` event payloads (`extn_client_message::ExtnEvent`, not
under `src/`): the variants matched by `callback_device_event` are
`AppEvent` and `PowerState`; everything else falls into the wildcard arm,
carried here by `Value`. -/
inductive ExtnEvent where
  | AppEvent (v : Json)
  | PowerState (v : Json)
  | Value (v : Json)
deriving DecidableEq, Repr

/-- `serde_json::to_value` on an `ExtnEvent` (externally tagged enum
serialization). -/
def ExtnEvent.toJson : ExtnEvent → Json
  | .AppEvent v => .obj (.cons "AppEvent" v .nil)
  | .PowerState v => .obj (.cons "PowerState" v .nil)
  | .Value v => .obj (.cons "Value" v .nil)

/-- `ThunderEventHandler::get_id`. -/
def ThunderEventHandler.get_id (h : ThunderEventHandler) : String :=
  h.id

/-- `ThunderEventHandler::add_listener`: `self.listeners.push(id)`. -/
def ThunderEventHandler.add_listener (h : ThunderEventHandler) (id : String) :
    ThunderEventHandler :=
  { h with listeners := h.listeners ++ [id] }

/-- `ThunderEventHandler::remove_listener`:
`self.listeners.retain(|x| !x.eq(&id)); self.listeners.len() == 0`.
Returns the updated handler together with the emptiness flag. -/
def ThunderEventHandler.remove_listener (h : ThunderEventHandler)
    (id : String) : ThunderEventHandler × Bool :=
  let kept := h.listeners.filter (fun x => x != id)
  ({ h with listeners := kept }, kept.length == 0)

/-- The two `HashMap`s inside `ThunderEventProcessor` (`event_map` and
`last_event`), with the `Arc<RwLock<_>>` wrappers dissolved into explicit
state passing. -/
structure ThunderEventProcessor where
  event_map : List (String × ThunderEventHandler)
  last_event : List (String × Json)
deriving DecidableEq, Repr

/-- `ThunderEventProcessor::new`. -/
def ThunderEventProcessor.new : ThunderEventProcessor :=
  { event_map := [], last_event := [] }

/-- `ThunderEventProcessor::get_handler`. -/
def ThunderEventProcessor.get_handler (p : ThunderEventProcessor)
    (event : String) : Option ThunderEventHandler :=
  mapGet p.event_map event

/-- `ThunderEventProcessor::add_event_listener`.  Returns the new state and
the boolean result (`true` exactly when the handler was newly installed). -/
def ThunderEventProcessor.add_event_listener (p : ThunderEventProcessor)
    (app_id : String) (handler : ThunderEventHandler) :
    ThunderEventProcessor × Bool :=
  let event_name := handler.get_id
  match mapGet p.event_map event_name with
  | some entry =>
    ({ p with event_map := mapInsert p.event_map event_name (entry.add_listener app_id) },
     false)
  | none =>
    ({ p with event_map := mapInsert p.event_map event_name handler }, true)

/-- `ThunderEventProcessor::remove_event_listener`: mutate the entry in
place when present; return `false` early when listeners remain, otherwise
drop the map entry and return `true` (also when no entry exists). -/
def ThunderEventProcessor.remove_event_listener (p : ThunderEventProcessor)
    (event_name : String) (app_id : String) : ThunderEventProcessor × Bool :=
  match mapGet p.event_map event_name with
  | some entry =>
    match entry.remove_listener app_id with
    | (entry2, empty) =>
      if empty then
        ({ p with event_map := mapRemove (mapInsert p.event_map event_name entry2) event_name },
         true)
      else
        ({ p with event_map := mapInsert p.event_map event_name entry2 }, false)
  | none =>
    ({ p with event_map := mapRemove p.event_map event_name }, true)

/-- `ThunderEventProcessor::handle_listener`. -/
def ThunderEventProcessor.handle_listener (p : ThunderEventProcessor)
    (listen : Bool) (app_id : String) (handler : ThunderEventHandler) :
    ThunderEventProcessor × Bool :=
  if listen then
    p.add_event_listener app_id handler
  else
    p.remove_event_listener handler.get_id app_id

/-- `ThunderEventProcessor::add_last_event`: stores the serialized event. -/
def ThunderEventProcessor.add_last_event (p : ThunderEventProcessor)
    (event_name : String) (value : ExtnEvent) : ThunderEventProcessor :=
  { p with last_event := mapInsert p.last_event event_name value.toJson }

/-- `ThunderEventProcessor::check_last_event`: `true` exactly when a cache
entry exists for the event name and equals the serialized new value. -/
def ThunderEventProcessor.check_last_event (p : ThunderEventProcessor)
    (event_name : String) (value : ExtnEvent) : Bool :=
  match mapGet p.last_event event_name with
  | some last_event => last_event == value.toJson
  | none => false

/-- `ThunderEventHandler::callback_device_event`.  Returns the new
processor state together with `true` when the event was forwarded to
listeners via `request_transient` (the `AppEvent` and `PowerState` arms;
the wildcard arm yields `Err(InvalidOutput)` and forwards nothing).  Note
the source forwards when `check_last_event` returns `true` and logs
"Already sent" otherwise. -/
def ThunderEventHandler.callback_device_event (p : ThunderEventProcessor)
    (event_name : String) (event : ExtnEvent) : ThunderEventProcessor × Bool :=
  if p.check_last_event event_name event then
    let p2 := p.add_last_event event_name event
    match event with
    | .AppEvent _ => (p2, true)
    | .PowerState _ => (p2, true)
    | .Value _ => (p2, false)
  else
    (p, false)

/-- Driver used by the theorems: feed a sequence of events through
`callback_device_event`, counting the deliveries made to listeners. -/
def runCallbacks (p : ThunderEventProcessor) :
    List (String × ExtnEvent) → ThunderEventProcessor × Nat
  | [] => (p, 0)
  | (name, ev) :: rest =>
    match ThunderEventHandler.callback_device_event p name ev with
    | (p2, delivered) =>
      match runCallbacks p2 rest with
      | (p3, count) => (p3, (if delivered then 1 else 0) + count)

/-! ## RPC router

From `src/core/main/src/firebolt/rpc_router.rs`.  The jsonrpsee method
table is embedded as a finite map from method names to method entries; a
method entry records the jsonrpsee `MethodKind` together with the frames
its callback writes to the sink for the call under consideration.
`Resources` abstracts `method.claim(name, &resources)`: it tells, per
method name, whether the resource claim succeeds. -/

/-- The fields of `CallContext` that `resolve_route` reads. -/
structure CallContext where
  call_id : Nat
  protocol : String
  request_id : String
deriving DecidableEq, Repr

/-- The fields of `RpcRequest` that `resolve_route` reads. -/
structure RpcRequest where
  method : String
  params_json : String
  ctx : CallContext
deriving DecidableEq, Repr

/-- jsonrpsee `MethodKind`, with the frames the method callback writes to
the sink when invoked on the current request.  `Subscription` stands for
every kind hitting the wildcard arm ("Unsupported method call"). -/
inductive MethodKind where
  | Sync (emits : List Json)
  | Async (emits : List Json)
  | Subscription
deriving DecidableEq, Repr

/-- The jsonrpsee `Methods` table. -/
abbrev Methods := List (String × MethodKind)

/-- Whether `method.claim(name, &resources)` succeeds for a method name. -/
abbrev Resources := String → Bool

/-- `jsonrpsee::types::error::ErrorCode::MethodNotFound` is JSON-RPC error
code `-32601` with message "Method not found". -/
def methodNotFoundCode : Int := -32601

/-- The frame `sink.send_error(id, code.into())` writes: a JSON-RPC error
response for the call id. -/
def errorFrame (call_id : Nat) (code : Int) (message : String) : Json :=
  .obj (.cons "jsonrpc" (.str "2.0")
    (.cons "error" (.obj (.cons "code" (.num code)
      (.cons "message" (.str message) .nil)))
    (.cons "id" (.num (call_id : Int)) .nil)))

/-- The sequence of frames that reach the sink of `resolve_route` for one
request: the lookup / claim / invoke logic of lines 82-115 of
`rpc_router.rs`. -/
def sinkFrames (methods : Methods) (resources : Resources)
    (req : RpcRequest) : List Json :=
  match mapGet methods req.method with
  | none => [errorFrame req.ctx.call_id methodNotFoundCode "Method not found"]
  | some (.Sync emits) =>
    if resources req.method then emits
    else [errorFrame req.ctx.call_id methodNotFoundCode "Method not found"]
  | some (.Async emits) =>
    if resources req.method then emits
    else [errorFrame req.ctx.call_id methodNotFoundCode "Method not found"]
  | some .Subscription => []

/-- `ApiMessage` (the payload is kept as structured JSON rather than its
string rendering). -/
structure ApiMessage where
  protocol : String
  jsonrpc_msg : Json
  request_id : String
deriving DecidableEq, Repr

/-- `resolve_route`: the first frame the sink receives becomes the
`ApiMessage`; when no frame is produced the result is
`Err(RippleError::InvalidOutput)`. -/
def resolve_route (methods : Methods) (resources : Resources)
    (req : RpcRequest) : Except RippleError ApiMessage :=
  match sinkFrames methods resources req with
  | [] => .error .InvalidOutput
  | r :: _ => .ok ⟨req.ctx.protocol, r, req.ctx.request_id⟩

/-- The `result`/`error` fields of `JsonRpcApiResponse`
(`rpc_gateway_api.rs`, not under `src/`) that `route_extn_protocol`
branches on. -/
structure JsonRpcApiResponse where
  result : Option Json
  error : Option Json
deriving DecidableEq, Repr

/-- `serde_json::from_str::<JsonRpcApiResponse>` on a frame: succeeds on a
JSON object, reading the optional `result` and `error` fields. -/
def parseJsonRpcApiResponse : Json → Option JsonRpcApiResponse
  | .obj members => some ⟨members.lookup "result", members.lookup "error"⟩
  | _ => none

/-- `ExtnResponse` (`extn_client_message.rs`, not under `src/`): the
variants used by the routines embedded here. -/
inductive ExtnResponse where
  | Value (v : Json)
  | String (s : String)
  | AvailableTimezones (tzs : List String)
deriving DecidableEq, Repr

/-- `serde_json::to_value(RippleError::InvalidOutput)`: externally tagged
serialization of a unit enum variant. -/
def invalidOutputJson : Json := .str "InvalidOutput"

/-- The value sent back on the extn message callback by
`RpcRouter::route_extn_protocol`, as a function of `resolve_route`'s
result; `none` means nothing is sent on the callback channel. -/
def extnReplyOfRoute (routeResult : Except RippleError ApiMessage) :
    Option ExtnResponse :=
  match routeResult with
  | .error _ => none
  | .ok msg =>
    match parseJsonRpcApiResponse msg.jsonrpc_msg with
    | none => none
    | some resp =>
      some (.Value
        (match resp.result with
         | some r => r
         | none =>
           match resp.error with
           | some e => e
           | none => invalidOutputJson))

/-- `RpcRouter::route_extn_protocol` composed with `resolve_route`: the
reply delivered on the extn message's callback channel (`none` when the
callback receives nothing). -/
def RpcRouter.route_extn_protocol (methods : Methods)
    (resources : Resources) (req : RpcRequest) : Option ExtnResponse :=
  extnReplyOfRoute (resolve_route methods resources req)

/-! ## Contract payload types

From `src/core/sdk/src/api/device/device_info_request.rs`,
`device_wifi.rs`, `device_browser.rs`, `caps.rs`,
`distributor_permissions.rs` and `fb_advertising.rs`.  Types that these
files reference from SDK modules not under `src/` (`RoleInfo`,
`AccountSession`, `OnInternetConnectedRequest`, the `ExtnRequest` /
`DeviceRequest` wrappers) are reconstructed from their uses in the
provided sources, with exactly the variants those uses exhibit. -/

/-- Bit-level stand-in for Rust `f32`: the embedded routines only clone
and structurally compare these values, never compute with them. -/
structure F32 where
  bits : Nat
deriving DecidableEq, Repr

/-- `OnInternetConnectedRequest` (from `device_request.rs`, not under
`src/`): carried opaquely by `DeviceInfoRequest::OnInternetConnected`. -/
structure OnInternetConnectedRequest where
  timeout : Nat
deriving DecidableEq, Repr

/-- `DeviceInfoRequest` from `device_info_request.rs`. -/
inductive DeviceInfoRequest where
  | MacAddress
  | Model
  | Make
  | Name
  | Version
  | HdcpSupport
  | HdcpStatus
  | Hdr
  | Audio
  | Sku
  | ScreenResolution
  | VideoResolution
  | AvailableMemory
  | Network
  | OnInternetConnected (r : OnInternetConnectedRequest)
  | SetTimezone (tz : String)
  | GetTimezone
  | GetAvailableTimezones
  | VoiceGuidanceEnabled
  | SetVoiceGuidanceEnabled (b : Bool)
  | VoiceGuidanceSpeed
  | SetVoiceGuidanceSpeed (speed : F32)
  | GetTimezoneWithOffset
  | FullCapabilities
deriving DecidableEq, Repr

/-- `WifiSecurityMode` from `device_wifi.rs`. -/
inductive WifiSecurityMode where
  | None
  | Wep64
  | Wep128
  | WpaPskTkip
  | WpaPskAes
  | Wpa2PskTkip
  | Wpa2PskAes
  | WpaEnterpriseTkip
  | WpaEnterpriseAes
  | Wpa2EnterpriseTkip
  | Wpa2EnterpriseAes
  | Wpa2Psk
  | Wpa2Enterprise
  | Wpa3PskAes
  | Wpa3Sae
deriving DecidableEq, Repr

/-- `AccessPointRequest` from `device_wifi.rs`. -/
structure AccessPointRequest where
  ssid : String
  passphrase : String
  security : WifiSecurityMode
deriving DecidableEq, Repr

/-- `WifiRequest` from `device_wifi.rs` (`Scan(u64)` carries a timeout). -/
inductive WifiRequest where
  | Scan (timeout : Nat)
  | Connect (ap : AccessPointRequest)
deriving DecidableEq, Repr

/-- `BrowserProps` from `device_browser.rs`. -/
structure BrowserProps where
  user_agent : Option String
  http_cookie_accept_policy : Option String
  local_storage_enabled : Option Bool
  languages : Option String
  headers : Option String
deriving DecidableEq, Repr

/-- `BrowserLaunchParams` from `device_browser.rs`. -/
structure BrowserLaunchParams where
  uri : String
  browser_name : String
  _type : String
  visible : Bool
  suspend : Bool
  focused : Bool
  name : String
  x : Nat
  y : Nat
  w : Nat
  h : Nat
  properties : Option BrowserProps
deriving DecidableEq, Repr

/-- `BrowserDestroyParams` from `device_browser.rs`. -/
structure BrowserDestroyParams where
  browser_name : String
deriving DecidableEq, Repr

/-- `BrowserNameRequestParams` from `device_browser.rs`. -/
structure BrowserNameRequestParams where
  runtime : String
  name : String
  instances : Nat
deriving DecidableEq, Repr

/-- `BrowserRequest` from `device_browser.rs`. -/
inductive BrowserRequest where
  | Start (p : BrowserLaunchParams)
  | Destroy (p : BrowserDestroyParams)
  | GetBrowserName (p : BrowserNameRequestParams)
deriving DecidableEq, Repr

/-- `CapabilityRole` (from `fb_capabilities.rs`, not under `src/`):
carried opaquely inside `RoleInfo`. -/
inductive CapabilityRole where
  | Use
  | Manage
  | Provide
deriving DecidableEq, Repr

/-- `RoleInfo` (from `fb_capabilities.rs`, not under `src/`): carried
opaquely by `CapsRequest::Permitted`. -/
structure RoleInfo where
  role : Option CapabilityRole
  capability : String
deriving DecidableEq, Repr

/-- `CapsRequest` from `caps.rs`. -/
inductive CapsRequest where
  | Permitted (app_id : String) (roles : List RoleInfo)
  | Supported (caps : List String)
deriving DecidableEq, Repr

/-- `AccountSession` (from `session.rs`, not under `src/`): carried
opaquely by `PermissionRequest` and `AdvertisingRequest`. -/
structure AccountSession where
  id : String
  token : String
  account_id : String
  device_id : String
deriving DecidableEq, Repr

/-- `PermissionRequest` from `distributor_permissions.rs`. -/
structure PermissionRequest where
  app_id : String
  session : AccountSession
deriving DecidableEq, Repr

/-- `AdInitObjectRequestParams` from `fb_advertising.rs`
(`HashMap<String, String>` fields embedded as association lists). -/
structure AdInitObjectRequestParams where
  privacy_data : List (String × String)
  environment : String
  durable_app_id : String
  app_version : String
  distributor_app_id : String
  device_ad_attributes : List (String × String)
  coppa : Bool
  authentication_entity : String
  dist_session : AccountSession
deriving DecidableEq, Repr

/-- `AdIdRequestParams` from `fb_advertising.rs`. -/
structure AdIdRequestParams where
  privacy_data : List (String × String)
  app_id : String
  dist_session : AccountSession
deriving DecidableEq, Repr

/-- `AdvertisingRequest` from `fb_advertising.rs`. -/
inductive AdvertisingRequest where
  | GetAdInitObject (p : AdInitObjectRequestParams)
  | GetAdIdObject (p : AdIdRequestParams)
  | ResetAdIdentifier (session : AccountSession)
deriving DecidableEq, Repr

/-- `DeviceRequest` (from `device_request.rs`, not under `src/`): the
wrapper variants exhibited by the payload provider impls in the provided
sources. -/
inductive DeviceRequest where
  | DeviceInfo (r : DeviceInfoRequest)
  | Wifi (r : WifiRequest)
  | Browser (r : BrowserRequest)
deriving DecidableEq, Repr

/-- `ExtnRequest` (from `extn_client_message.rs`, not under `src/`): the
request tags exhibited by the payload provider impls in the provided
sources. -/
inductive ExtnRequest where
  | Device (r : DeviceRequest)
  | AuthorizedInfo (r : CapsRequest)
  | Permission (r : PermissionRequest)
  | Advertising (r : AdvertisingRequest)
deriving DecidableEq, Repr

/-- `ExtnPayload` (from `extn_client_message.rs`, not under `src/`). -/
inductive ExtnPayload where
  | Request (r : ExtnRequest)
  | Response (r : ExtnResponse)
  | Event (e : ExtnEvent)
deriving DecidableEq, Repr

/-- `impl ExtnPayloadProvider for DeviceInfoRequest`, `get_extn_payload`. -/
def DeviceInfoRequest.get_extn_payload (x : DeviceInfoRequest) : ExtnPayload :=
  .Request (.Device (.DeviceInfo x))

/-- `impl ExtnPayloadProvider for DeviceInfoRequest`, `get_from_payload`:
the nested matches with wildcard fall-through collapse to one pattern. -/
def DeviceInfoRequest.get_from_payload :
    ExtnPayload → Option DeviceInfoRequest
  | .Request (.Device (.DeviceInfo d)) => some d
  | _ => none

/-- `impl ExtnPayloadProvider for WifiRequest`, `get_extn_payload`. -/
def WifiRequest.get_extn_payload (x : WifiRequest) : ExtnPayload :=
  .Request (.Device (.Wifi x))

/-- `impl ExtnPayloadProvider for WifiRequest`, `get_from_payload`. -/
def WifiRequest.get_from_payload : ExtnPayload → Option WifiRequest
  | .Request (.Device (.Wifi d)) => some d
  | _ => none

/-- `impl ExtnPayloadProvider for BrowserRequest`, `get_extn_payload`. -/
def BrowserRequest.get_extn_payload (x : BrowserRequest) : ExtnPayload :=
  .Request (.Device (.Browser x))

/-- `impl ExtnPayloadProvider for BrowserRequest`, `get_from_payload`. -/
def BrowserRequest.get_from_payload : ExtnPayload → Option BrowserRequest
  | .Request (.Device (.Browser d)) => some d
  | _ => none

/-- `impl ExtnPayloadProvider for CapsRequest`, `get_extn_payload`. -/
def CapsRequest.get_extn_payload (x : CapsRequest) : ExtnPayload :=
  .Request (.AuthorizedInfo x)

/-- `impl ExtnPayloadProvider for CapsRequest`, `get_from_payload`. -/
def CapsRequest.get_from_payload : ExtnPayload → Option CapsRequest
  | .Request (.AuthorizedInfo v) => some v
  | _ => none

/-- `impl ExtnPayloadProvider for PermissionRequest`, `get_extn_payload`. -/
def PermissionRequest.get_extn_payload (x : PermissionRequest) : ExtnPayload :=
  .Request (.Permission x)

/-- `impl ExtnPayloadProvider for PermissionRequest`, `get_from_payload`. -/
def PermissionRequest.get_from_payload : ExtnPayload → Option PermissionRequest
  | .Request (.Permission p) => some p
  | _ => none

/-- `impl ExtnPayloadProvider for AdvertisingRequest`, `get_extn_payload`. -/
def AdvertisingRequest.get_extn_payload (x : AdvertisingRequest) : ExtnPayload :=
  .Request (.Advertising x)

/-- `impl ExtnPayloadProvider for AdvertisingRequest`, `get_from_payload`. -/
def AdvertisingRequest.get_from_payload :
    ExtnPayload → Option AdvertisingRequest
  | .Request (.Advertising r) => some r
  | _ => none

/-! ## Localization: `timezone_set`

From `src/core/main/src/firebolt/handlers/localization_rpc.rs`, lines
419-464.  The two `send_extn_request` calls are embedded by passing their
outcomes as arguments (`availResp` is the `GetAvailableTimezones` reply
after `payload.extract()`; `setTzOk` tells whether the `SetTimezone`
request would succeed).  The function returns the `RpcResult` together
with the list of `DeviceInfoRequest`s it issued, in order, so that
theorems can state that no `SetTimezone` request was sent.  The trailing
`rpc_add_event_listener` call on the success path does not issue a
`DeviceInfoRequest` and is not modelled. -/

/-- `jsonrpsee::core::Error` as used here (`Error::Custom`, also produced
by `rpc_err`). -/
inductive JsonRpseeError where
  | Custom (s : String)
deriving DecidableEq, Repr

/-- `LocalizationImpl::timezone_set`. -/
def timezone_set
    (availResp : Except RippleError (Option ExtnResponse))
    (setTzOk : Bool) (value : String) :
    Except JsonRpseeError Unit × List DeviceInfoRequest :=
  match availResp with
  | .error _ =>
    (.error (.Custom "timezone_set: error response TBD"),
     [.GetAvailableTimezones])
  | .ok extracted =>
    match extracted with
    | some (.AvailableTimezones timezones) =>
      if timezones.contains value then
        if setTzOk then
          (.ok (), [.GetAvailableTimezones, .SetTimezone value])
        else
          (.error (.Custom "timezone: error response TBD"),
           [.GetAvailableTimezones, .SetTimezone value])
      else
        (.error (.Custom "timezone_set: error response TBD"),
         [.GetAvailableTimezones])
    | _ =>
      (.error (.Custom "timezone_set: error response TBD"),
       [.GetAvailableTimezones])

/-! ## Thunder pool bootstrap step

From `src/device/thunder_ripple_sdk/src/bootstrap/setup_thunder_pool_step.rs`.
-/

/-- Modelled from the spec: `ThunderClientPool::start` (its source,
`thunder_client_pool.rs`, is not under `src/`) opens a pool of `size`
connections to the platform; the spec's bootstrap contract ("If the
controller connection fails to open, the whole bootstrap fails with
`BootstrapError`") fixes its failure value as `BootstrapError`.  The
connection outcome is abstracted by the boolean `ok`; a successful start
returns the pool (represented by its size). -/
def ThunderClientPool.start (ok : Bool) (size : Nat) :
    Except RippleError Nat :=
  if ok then .ok size else .error .BootstrapError

/-- Observable outcome of `ThunderPoolStep::setup`: the step result (with
`ThunderState` represented by its controller and request pool sizes), the
sizes passed to each attempted `ThunderClientPool::start` call in order,
and the `ExtnStatus` events emitted. -/
structure PoolSetupOutcome where
  result : Except RippleError (Nat × Nat)
  startsAttempted : List Nat
  statusEvents : List ExtnStatus
deriving Repr

/-- `ThunderPoolStep::setup`. -/
def ThunderPoolStep.setup (pool_size : Nat) (controllerOk : Bool)
    (clientOk : Bool) : PoolSetupOutcome :=
  if pool_size < 2 then
    ⟨.error .BootstrapError, [], []⟩
  else
    match ThunderClientPool.start controllerOk 1 with
    | .error e => ⟨.error e, [1], [.Error]⟩
    | .ok controller_pool =>
      match ThunderClientPool.start clientOk (pool_size - 1) with
      | .error e => ⟨.error e, [1, pool_size - 1], [.Error]⟩
      | .ok client =>
        ⟨.ok (controller_pool, client), [1, pool_size - 1], [.Ready]⟩

/-! ## App library

From `src/core/sdk/src/api/manifest/app_library.rs`.  `AppManifest`
(from `apps.rs`, not under `src/`) is embedded with the fields
`generate_provider_map` reads: `capabilities.provided.required` and
`capabilities.provided.optional`. -/

/-- `BootState` from `device_manifest.rs` (not under `src/`); only
`Foreground` is inspected, by `get_default_app`. -/
inductive BootState where
  | Inactive
  | Foreground
  | Unloaded
deriving DecidableEq, Repr

/-- The provided-capability lists of an app manifest. -/
structure ProvidedCapabilities where
  required : List String
  optional : List String
deriving DecidableEq, Repr

/-- The `capabilities` field of `AppManifest`. -/
structure AppCapabilities where
  provided : ProvidedCapabilities
deriving DecidableEq, Repr

/-- `AppManifest` restricted to the fields read here. -/
structure AppManifest where
  capabilities : AppCapabilities
deriving DecidableEq, Repr

/-- `AppManifestLoad` from `device_manifest.rs` (not under `src/`);
variants as matched in `app_library.rs`. -/
inductive AppManifestLoad where
  | Remote (url : String)
  | Local (path : String)
  | Embedded (manifest : AppManifest)
deriving DecidableEq, Repr

/-- `AppLibraryEntry` from `device_manifest.rs` (not under `src/`);
fields as read in `app_library.rs`. -/
structure AppLibraryEntry where
  app_id : String
  manifest : AppManifestLoad
  boot_state : BootState
deriving DecidableEq, Repr

/-- One iteration of the `for app in apps.iter()` loop of
`AppLibrary::generate_provider_map`: required capabilities are inserted
first, then optional ones; non-embedded manifests only log a warning. -/
def providerStep (map : List (String × String)) (app : AppLibraryEntry) :
    List (String × String) :=
  match app.manifest with
  | .Embedded manifest =>
    let map2 := manifest.capabilities.provided.required.foldl
      (fun mp capability => mapInsert mp capability app.app_id) map
    manifest.capabilities.provided.optional.foldl
      (fun mp capability => mapInsert mp capability app.app_id) map2
  | _ => map

/-- `AppLibrary::generate_provider_map`. -/
def AppLibrary.generate_provider_map (apps : List AppLibraryEntry) :
    List (String × String) :=
  apps.foldl providerStep []

/-- `AppLibraryState` from `app_library.rs`. -/
structure AppLibraryState where
  default_apps : List AppLibraryEntry
  providers : List (String × String)
deriving DecidableEq, Repr

/-- `AppLibraryState::new`. -/
def AppLibraryState.new (default_apps : List AppLibraryEntry) :
    AppLibraryState :=
  { default_apps := default_apps,
    providers := AppLibrary.generate_provider_map default_apps }

/-- `AppLibrary::get_provider`. -/
def AppLibrary.get_provider (state : AppLibraryState)
    (capability : String) : Option String :=
  mapGet state.providers capability

/-- Whether an app library entry declares a capability among its provided
(required or optional) capabilities; only embedded manifests declare. -/
def declaresCap (app : AppLibraryEntry) (capability : String) : Bool :=
  match app.manifest with
  | .Embedded manifest =>
    decide (capability ∈ manifest.capabilities.provided.required
      ∨ capability ∈ manifest.capabilities.provided.optional)
  | _ => false

/-! ## Map lemmas -/

theorem mapGet_mapRemove_self {α : Type} (m : List (String × α))
    (k : String) : mapGet (mapRemove m k) k = none := by
  induction m with
  | nil => rfl
  | cons hd tl ih =>
    obtain ⟨k2, v⟩ := hd
    by_cases h : k2 = k
    · simpa [mapRemove, h] using ih
    · simpa [mapRemove, mapGet, h] using ih

theorem mapRemove_mapRemove_self {α : Type} (m : List (String × α))
    (k : String) : mapRemove (mapRemove m k) k = mapRemove m k := by
  induction m with
  | nil => rfl
  | cons hd tl ih =>
    obtain ⟨k2, v⟩ := hd
    by_cases h : k2 = k
    · simpa [mapRemove, h] using ih
    · simp [mapRemove, h, ih]

theorem mapRemove_append {α : Type} (m1 m2 : List (String × α))
    (k : String) :
    mapRemove (m1 ++ m2) k = mapRemove m1 k ++ mapRemove m2 k := by
  induction m1 with
  | nil => rfl
  | cons hd tl ih =>
    obtain ⟨k2, v⟩ := hd
    by_cases h : k2 = k
    · simp [mapRemove, h, ih]
    · simp [mapRemove, h, ih]

theorem mapGet_mapInsert_self {α : Type} (m : List (String × α))
    (k : String) (v : α) : mapGet (mapInsert m k v) k = some v := by
  unfold mapInsert
  induction m with
  | nil => simp [mapRemove, mapGet]
  | cons hd tl ih =>
    obtain ⟨k2, w⟩ := hd
    by_cases h : k2 = k
    · simpa [mapRemove, h] using ih
    · simpa [mapRemove, mapGet, h] using ih

theorem mapGet_mapInsert_ne {α : Type} (m : List (String × α))
    (k key : String) (v : α) (h : k ≠ key) :
    mapGet (mapInsert m k v) key = mapGet m key := by
  unfold mapInsert
  induction m with
  | nil => simp [mapRemove, mapGet, h]
  | cons hd tl ih =>
    obtain ⟨k2, w⟩ := hd
    by_cases h2 : k2 = k
    · subst h2
      simp [mapRemove, mapGet, h, Ne.symm h, ih]
    · by_cases h3 : k2 = key
      · subst h3
        simp [mapRemove, mapGet, Ne.symm h, mapGet]
      · simp [mapRemove, mapGet, h2, h3, ih]

theorem mapRemove_mapInsert_self {α : Type} (m : List (String × α))
    (k : String) (v : α) :
    mapRemove (mapInsert m k v) k = mapRemove m k := by
  unfold mapInsert
  rw [mapRemove_append, mapRemove_mapRemove_self]
  simp [mapRemove]

theorem mapInsert_mapInsert_self {α : Type} (m : List (String × α))
    (k : String) (v w : α) :
    mapInsert (mapInsert m k v) k w = mapInsert m k w := by
  unfold mapInsert
  rw [mapRemove_append, mapRemove_mapRemove_self]
  simp [mapRemove]

/-! ## Event processor lemmas -/

theorem remove_event_listener_none (p : ThunderEventProcessor)
    (event app_id : String) (hm : mapGet p.event_map event = none) :
    p.remove_event_listener event app_id =
      ({ p with event_map := mapRemove p.event_map event }, true) := by
  simp [ThunderEventProcessor.remove_event_listener, hm]

theorem remove_event_listener_some (p : ThunderEventProcessor)
    (event app_id : String) (entry : ThunderEventHandler)
    (hm : mapGet p.event_map event = some entry) :
    p.remove_event_listener event app_id =
      (if (entry.listeners.filter (fun x => x != app_id)).length == 0 then
        ({ p with event_map :=
            mapRemove (mapInsert p.event_map event
              (ThunderEventHandler.mk
                (entry.listeners.filter (fun x => x != app_id)) entry.id)) event },
         true)
      else
        ({ p with event_map :=
            (mapInsert p.event_map event
              (ThunderEventHandler.mk
                (entry.listeners.filter (fun x => x != app_id)) entry.id)) },
         false)) := by
  simp only [ThunderEventProcessor.remove_event_listener, hm,
    ThunderEventHandler.remove_listener]

theorem handle_listener_true (p : ThunderEventProcessor) (app_id : String)
    (h : ThunderEventHandler) :
    p.handle_listener true app_id h = p.add_event_listener app_id h :=
  rfl

theorem handle_listener_false (p : ThunderEventProcessor) (app_id : String)
    (h : ThunderEventHandler) :
    p.handle_listener false app_id h
      = p.remove_event_listener h.get_id app_id :=
  rfl

/-! ## Claim theorems: device-event processor -/

/-- Claim C1: the spec says identical consecutive payloads are dropped and
exactly one delivery is made.  The code forwards only when
`check_last_event` returns `true`, i.e. when a cache entry exists and
equals the new payload, and the cache is populated only on that same
branch - so no event is ever forwarded: two identical
`VoiceGuidanceChanged` payloads produce zero deliveries (spec expects
one), and the four-event sequence true,true,false,true also produces zero
deliveries (spec expects three).  The source's own `else` branch logs
"Already sent" precisely when nothing was ever sent: the condition is
inverted. -/
theorem c1_callback_device_event_never_delivers :
    (runCallbacks ThunderEventProcessor.new
      [("VoiceGuidanceChanged", .AppEvent (.obj (.cons "state" (.bool true) .nil))),
       ("VoiceGuidanceChanged", .AppEvent (.obj (.cons "state" (.bool true) .nil)))]).2 = 0
    ∧ (runCallbacks ThunderEventProcessor.new
      [("VoiceGuidanceChanged", .AppEvent (.obj (.cons "state" (.bool true) .nil))),
       ("VoiceGuidanceChanged", .AppEvent (.obj (.cons "state" (.bool true) .nil))),
       ("VoiceGuidanceChanged", .AppEvent (.obj (.cons "state" (.bool false) .nil))),
       ("VoiceGuidanceChanged", .AppEvent (.obj (.cons "state" (.bool true) .nil)))]).2 = 0 :=
  ⟨rfl, rfl⟩

/-- Claim C3 counterexample: listener addition is not idempotent.
`add_listener` is a plain `Vec::push`: adding `"a"` twice to a handler
leaves two entries, not one; and at the processor level, when `"a"` is
already the registered listener, two further adds leave three entries. -/
theorem c3_add_twice_counterexample :
    ((ThunderEventHandler.add_listener
        (ThunderEventHandler.add_listener ⟨[], "e"⟩ "a") "a").listeners
      = ["a", "a"])
    ∧ ((((ThunderEventProcessor.mk [("e", ⟨["a"], "e"⟩)] []).add_event_listener
          "a" ⟨["a"], "e"⟩).1.add_event_listener "a" ⟨["a"], "e"⟩).1.event_map
        = [("e", ⟨["a", "a", "a"], "e"⟩)]) :=
  ⟨rfl, rfl⟩

/-- Claim C3 (amended): removal is idempotent - `remove_listener` deletes
every occurrence of the app id, so removing twice equals removing once,
both on a handler and through `remove_event_listener`.  Addition is not
idempotent: `add_listener` appends unconditionally, so two adds append two
entries; only the special case of two `add_event_listener` calls starting
from an unregistered event whose handler carries an empty listener list
ends with exactly one entry (the first call installs the handler without
appending). -/
theorem c3_amended_removal_idempotent_addition_appends
    (h : ThunderEventHandler) (a event : String)
    (p : ThunderEventProcessor) :
    ((h.add_listener a).add_listener a).listeners = h.listeners ++ [a, a]
    ∧ (h.remove_listener a).1.remove_listener a = h.remove_listener a
    ∧ ((p.remove_event_listener event a).1.remove_event_listener event a)
        = p.remove_event_listener event a
    ∧ (mapGet p.event_map h.id = none → h.listeners = [] →
        ((p.add_event_listener a h).1.add_event_listener a h).1.get_handler h.id
          = some ⟨[a], h.id⟩) := by
  refine ⟨?_, ?_, ?_, ?_⟩
  · simp [ThunderEventHandler.add_listener]
  · simp only [ThunderEventHandler.remove_listener, List.filter_filter]
    simp
  · cases hm : mapGet p.event_map event with
    | none =>
      rw [remove_event_listener_none p event a hm]
      rw [remove_event_listener_none _ event a
        (by simpa using mapGet_mapRemove_self p.event_map event)]
      rw [mapRemove_mapRemove_self]
    | some entry =>
      rw [remove_event_listener_some p event a entry hm]
      by_cases hk :
          ((entry.listeners.filter (fun x => x != a)).length == 0) = true
      · rw [if_pos hk, mapRemove_mapInsert_self]
        rw [remove_event_listener_none _ event a
          (by simpa using mapGet_mapRemove_self p.event_map event)]
        rw [mapRemove_mapRemove_self]
      · rw [if_neg hk]
        have hm2 : mapGet (mapInsert p.event_map event
            (ThunderEventHandler.mk
              (entry.listeners.filter (fun x => x != a)) entry.id)) event
            = some (ThunderEventHandler.mk
              (entry.listeners.filter (fun x => x != a)) entry.id) :=
          mapGet_mapInsert_self _ _ _
        rw [remove_event_listener_some _ event a _ hm2]
        have hff : (entry.listeners.filter (fun x => x != a)).filter
            (fun x => x != a) = entry.listeners.filter (fun x => x != a) := by
          rw [List.filter_filter]
          simp
        simp only [hff]
        rw [if_neg hk, mapInsert_mapInsert_self]
  · intro hm hl
    simp [ThunderEventProcessor.add_event_listener,
      ThunderEventHandler.get_id, hm, ThunderEventProcessor.get_handler,
      mapGet_mapInsert_self, ThunderEventHandler.add_listener, hl]

/-- Claim C3 witness for the amended hypotheses: two adds from scratch with
an initially-empty handler leave exactly one listener entry. -/
theorem c3_amended_witness :
    ((ThunderEventProcessor.new.add_event_listener "a"
        ⟨[], "e"⟩).1.add_event_listener "a" ⟨[], "e"⟩).1.get_handler "e"
      = some ⟨["a"], "e"⟩ :=
  (c3_amended_removal_idempotent_addition_appends ⟨[], "e"⟩ "a" "e"
    ThunderEventProcessor.new).2.2.2 rfl rfl

/-- Claim C7: `handle_listener` returns `true` exactly when a
platform-level change is required.  With `listen = true` the return value
is `true` precisely when no handler entry existed (first use, so the
caller issues the platform subscribe), the handler being installed on
first use and the app id appended to the existing entry otherwise.  With
`listen = false` the return value is `true` precisely when afterwards no
handler entry remains for the event (the listener set became empty and the
handler was deleted, so the caller issues the unsubscribe). -/
theorem c7_handle_listener_signals_platform_change
    (p : ThunderEventProcessor) (app_id : String)
    (h : ThunderEventHandler) :
    ((p.handle_listener true app_id h).2 = (mapGet p.event_map h.id).isNone)
    ∧ ((p.handle_listener false app_id h).2 =
        (mapGet (p.handle_listener false app_id h).1.event_map h.id).isNone)
    ∧ (mapGet p.event_map h.id = none →
        (p.handle_listener true app_id h).1.get_handler h.id = some h)
    ∧ (∀ entry, mapGet p.event_map h.id = some entry →
        (p.handle_listener true app_id h).1.get_handler h.id =
          some (entry.add_listener app_id)) := by
  refine ⟨?_, ?_, ?_, ?_⟩
  · rw [handle_listener_true]
    cases hm : mapGet p.event_map h.id with
    | none =>
      simp [ThunderEventProcessor.add_event_listener,
        ThunderEventHandler.get_id, hm]
    | some entry =>
      simp [ThunderEventProcessor.add_event_listener,
        ThunderEventHandler.get_id, hm]
  · rw [handle_listener_false, ThunderEventHandler.get_id]
    cases hm : mapGet p.event_map h.id with
    | none =>
      rw [remove_event_listener_none p h.id app_id hm]
      simp [mapGet_mapRemove_self]
    | some entry =>
      rw [remove_event_listener_some p h.id app_id entry hm]
      by_cases hk :
          ((entry.listeners.filter (fun x => x != app_id)).length == 0) = true
      · rw [if_pos hk, mapRemove_mapInsert_self]
        simp [mapGet_mapRemove_self]
      · rw [if_neg hk]
        simp [mapGet_mapInsert_self]
  · intro hm
    rw [handle_listener_true]
    simp [ThunderEventProcessor.add_event_listener,
      ThunderEventHandler.get_id, hm,
      ThunderEventProcessor.get_handler, mapGet_mapInsert_self]
  · intro entry hm
    rw [handle_listener_true]
    simp [ThunderEventProcessor.add_event_listener,
      ThunderEventHandler.get_id, hm,
      ThunderEventProcessor.get_handler, mapGet_mapInsert_self]

/-- Claim C7 witness: first use installs the handler (subscribe required);
an add on an existing entry appends the app id and returns `false`. -/
theorem c7_handle_listener_witness :
    ((ThunderEventProcessor.new.handle_listener true "a" ⟨[], "e"⟩).1.get_handler "e"
      = some ⟨[], "e"⟩)
    ∧ (((ThunderEventProcessor.mk [("e", ⟨["a"], "e"⟩)] []).handle_listener
        true "b" ⟨[], "e"⟩).1.get_handler "e"
      = some (ThunderEventHandler.add_listener ⟨["a"], "e"⟩ "b")) :=
  ⟨(c7_handle_listener_signals_platform_change
      ThunderEventProcessor.new "a" ⟨[], "e"⟩).2.2.1 rfl,
   (c7_handle_listener_signals_platform_change
      (ThunderEventProcessor.mk [("e", ⟨["a"], "e"⟩)] []) "b"
      ⟨[], "e"⟩).2.2.2 ⟨["a"], "e"⟩ rfl⟩

/-- Claim C10: for an event name with no registered handler,
`remove_event_listener` (and `handle_listener` with `listen = false`)
still returns `true`, signalling a platform-level unsubscribe although no
listener was ever registered. -/
theorem c10_remove_unknown_event_signals_unsubscribe
    (p : ThunderEventProcessor) (event app_id : String)
    (listeners : List String)
    (hm : mapGet p.event_map event = none) :
    (p.remove_event_listener event app_id).2 = true
    ∧ (p.handle_listener false app_id ⟨listeners, event⟩).2 = true := by
  constructor
  · rw [remove_event_listener_none p event app_id hm]
  · rw [handle_listener_false, ThunderEventHandler.get_id]
    rw [remove_event_listener_none p event app_id hm]

/-- Claim C10 witness: the empty processor has no handler for
"SomeEvent", yet removal reports that an unsubscribe is required. -/
theorem c10_witness :
    mapGet ThunderEventProcessor.new.event_map "SomeEvent" = none
    ∧ (ThunderEventProcessor.new.remove_event_listener "SomeEvent" "app1").2 = true
    ∧ (ThunderEventProcessor.new.handle_listener false "app1"
        ⟨[], "SomeEvent"⟩).2 = true :=
  ⟨rfl,
   (c10_remove_unknown_event_signals_unsubscribe
      ThunderEventProcessor.new "SomeEvent" "app1" [] rfl).1,
   (c10_remove_unknown_event_signals_unsubscribe
      ThunderEventProcessor.new "SomeEvent" "app1" [] rfl).2⟩

/-! ## Claim theorems: RPC router -/

/-- Claim C2: for every incoming request, an absent method and a failed
resource claim (for the sync and async kinds, the kinds that claim
resources) both produce the identical JSON-RPC `MethodNotFound` error
frame (code `-32601`) for the request's `call_id`. -/
theorem c2_dispatch_method_not_found (methods : Methods)
    (resources : Resources) (req : RpcRequest) :
    (mapGet methods req.method = none →
      resolve_route methods resources req =
        .ok ⟨req.ctx.protocol,
          errorFrame req.ctx.call_id methodNotFoundCode "Method not found",
          req.ctx.request_id⟩)
    ∧ (∀ emits,
        (mapGet methods req.method = some (.Sync emits)
          ∨ mapGet methods req.method = some (.Async emits)) →
        resources req.method = false →
        resolve_route methods resources req =
          .ok ⟨req.ctx.protocol,
            errorFrame req.ctx.call_id methodNotFoundCode "Method not found",
            req.ctx.request_id⟩) := by
  constructor
  · intro h
    simp [resolve_route, sinkFrames, h]
  · intro emits hor hres
    cases hor with
    | inl h => simp [resolve_route, sinkFrames, h, hres]
    | inr h => simp [resolve_route, sinkFrames, h, hres]

/-- Claim C2 witness: a request for an unregistered method and a request
whose method is registered but whose resource claim fails both receive
the `-32601` error frame for their call id. -/
theorem c2_dispatch_method_not_found_witness :
    resolve_route [("account.id", .Sync [.str "ok"])] (fun _ => true)
        ⟨"bogus.op", "{}", ⟨8, "JsonRpc", "r8"⟩⟩ =
      .ok ⟨"JsonRpc", errorFrame 8 methodNotFoundCode "Method not found", "r8"⟩
    ∧ resolve_route [("account.id", .Sync [.str "ok"])] (fun _ => false)
        ⟨"account.id", "{}", ⟨9, "JsonRpc", "r9"⟩⟩ =
      .ok ⟨"JsonRpc", errorFrame 9 methodNotFoundCode "Method not found", "r9"⟩ :=
  ⟨(c2_dispatch_method_not_found [("account.id", .Sync [.str "ok"])]
      (fun _ => true) ⟨"bogus.op", "{}", ⟨8, "JsonRpc", "r8"⟩⟩).1 rfl,
   (c2_dispatch_method_not_found [("account.id", .Sync [.str "ok"])]
      (fun _ => false) ⟨"account.id", "{}", ⟨9, "JsonRpc", "r9"⟩⟩).2
     [.str "ok"] (Or.inl rfl) rfl⟩

/-- Claim C4 counterexample: when the handler produces no frame at all,
`resolve_route` fails with `InvalidOutput` and `route_extn_protocol`
falls out of its `if let Ok(msg)` - nothing at all is sent on the extn
callback channel, contradicting the claim that `InvalidOutput` is then
sent on the callback. -/
theorem c4_no_frame_sends_nothing_counterexample :
    RpcRouter.route_extn_protocol [("m", .Sync [])] (fun _ => true)
      ⟨"m", "{}", ⟨1, "Extn", "r1"⟩⟩ = none :=
  rfl

/-- Claim C4 (amended): the reply on the extn callback wraps the handler
output as `ExtnResponse::Value`; when the frame carries a `result` that
value is the result, when it carries only a JSON-RPC `error` object that
object is the value, when it parses but carries neither the serialized
`InvalidOutput` is the value - but when the handler produced no frame at
all, nothing is sent on the callback channel. -/
theorem c4_amended_extn_reply (methods : Methods) (resources : Resources)
    (req : RpcRequest) (emits : List Json)
    (hm : mapGet methods req.method = some (.Sync emits)
      ∨ mapGet methods req.method = some (.Async emits))
    (hres : resources req.method = true) :
    (emits = [] →
      RpcRouter.route_extn_protocol methods resources req = none)
    ∧ (∀ members r, emits = [Json.obj members] →
        members.lookup "result" = some r →
        RpcRouter.route_extn_protocol methods resources req
          = some (.Value r))
    ∧ (∀ members e, emits = [Json.obj members] →
        members.lookup "result" = none →
        members.lookup "error" = some e →
        RpcRouter.route_extn_protocol methods resources req
          = some (.Value e))
    ∧ (∀ members, emits = [Json.obj members] →
        members.lookup "result" = none →
        members.lookup "error" = none →
        RpcRouter.route_extn_protocol methods resources req
          = some (.Value invalidOutputJson)) := by
  have hframes : sinkFrames methods resources req = emits := by
    cases hm with
    | inl h => simp [sinkFrames, h, hres]
    | inr h => simp [sinkFrames, h, hres]
  refine ⟨?_, ?_, ?_, ?_⟩
  · intro he
    simp [RpcRouter.route_extn_protocol, resolve_route, hframes, he,
      extnReplyOfRoute]
  · intro members r he hr
    simp [RpcRouter.route_extn_protocol, resolve_route, hframes, he,
      extnReplyOfRoute, parseJsonRpcApiResponse, hr]
  · intro members e he hr herr
    simp [RpcRouter.route_extn_protocol, resolve_route, hframes, he,
      extnReplyOfRoute, parseJsonRpcApiResponse, hr, herr]
  · intro members he hr herr
    simp [RpcRouter.route_extn_protocol, resolve_route, hframes, he,
      extnReplyOfRoute, parseJsonRpcApiResponse, hr, herr]

/-- Claim C4 witness: a handler frame that carries only a JSON-RPC error
object is delivered as `ExtnResponse::Value` of that object; a frame with
neither `result` nor `error` is delivered as the serialized
`InvalidOutput`; a handler that emits nothing sends nothing. -/
theorem c4_amended_extn_reply_witness :
    RpcRouter.route_extn_protocol
        [("m", .Sync [Json.obj (.cons "jsonrpc" (.str "2.0")
          (.cons "error" (.str "boom") .nil))])] (fun _ => true)
        ⟨"m", "{}", ⟨2, "Extn", "r2"⟩⟩ = some (.Value (.str "boom"))
    ∧ RpcRouter.route_extn_protocol
        [("m", .Sync [Json.obj (.cons "jsonrpc" (.str "2.0") .nil)])]
        (fun _ => true) ⟨"m", "{}", ⟨3, "Extn", "r3"⟩⟩
      = some (.Value invalidOutputJson)
    ∧ RpcRouter.route_extn_protocol [("m", .Sync [])] (fun _ => true)
        ⟨"m", "{}", ⟨4, "Extn", "r4"⟩⟩ = none :=
  ⟨(c4_amended_extn_reply [("m", .Sync [Json.obj (.cons "jsonrpc" (.str "2.0")
      (.cons "error" (.str "boom") .nil))])] (fun _ => true)
      ⟨"m", "{}", ⟨2, "Extn", "r2"⟩⟩ _ (Or.inl rfl) rfl).2.2.1
      (.cons "jsonrpc" (.str "2.0") (.cons "error" (.str "boom") .nil))
      (.str "boom") rfl rfl rfl,
   (c4_amended_extn_reply [("m", .Sync [Json.obj (.cons "jsonrpc" (.str "2.0")
      .nil)])] (fun _ => true) ⟨"m", "{}", ⟨3, "Extn", "r3"⟩⟩ _
      (Or.inl rfl) rfl).2.2.2
      (.cons "jsonrpc" (.str "2.0") .nil) rfl rfl rfl,
   (c4_amended_extn_reply [("m", .Sync [])] (fun _ => true)
      ⟨"m", "{}", ⟨4, "Extn", "r4"⟩⟩ _ (Or.inl rfl) rfl).1 rfl⟩

/-! ## Claim theorems: localization -/

/-- Claim C5: when the requested timezone value is not contained in the
list returned by `GetAvailableTimezones`, `timezone_set` returns the
"Unsupported timezone" error and the only extn request issued is the
`GetAvailableTimezones` lookup - no `SetTimezone` request is sent, so the
timezone state is unchanged. -/
theorem c5_timezone_set_rejects_unsupported (timezones : List String)
    (value : String) (setTzOk : Bool)
    (hv : timezones.contains value = false) :
    timezone_set (.ok (some (.AvailableTimezones timezones))) setTzOk value
      = (.error (.Custom "timezone_set: error response TBD"),
         [.GetAvailableTimezones]) := by
  have hv2 : ¬ value ∈ timezones := by simpa using hv
  simp [timezone_set, hv2]

/-- Claim C5 witness: requesting "Atlantis/Nowhere" when the platform
offers only "UTC" and "America/New_York" is rejected without issuing a
`SetTimezone` request. -/
theorem c5_timezone_set_rejects_unsupported_witness :
    timezone_set
        (.ok (some (.AvailableTimezones ["UTC", "America/New_York"])))
        true "Atlantis/Nowhere"
      = (.error (.Custom "timezone_set: error response TBD"),
         [.GetAvailableTimezones]) :=
  c5_timezone_set_rejects_unsupported ["UTC", "America/New_York"]
    "Atlantis/Nowhere" true (by decide)

/-! ## Claim theorems: contract payload round-trips -/

/-- Claim C6: for each contract request type (`DeviceInfoRequest`,
`WifiRequest`, `CapsRequest`, `PermissionRequest`, `AdvertisingRequest`),
`get_from_payload (get_extn_payload x) = Some x`, and `get_from_payload`
succeeds only on payloads bearing exactly that type's inner request tag
(so it returns `None` on every differing tag). -/
theorem c6_payload_roundtrip_and_tag_exclusive :
    (∀ x : DeviceInfoRequest,
      DeviceInfoRequest.get_from_payload x.get_extn_payload = some x)
    ∧ (∀ (p : ExtnPayload) (x : DeviceInfoRequest),
        DeviceInfoRequest.get_from_payload p = some x →
        p = x.get_extn_payload)
    ∧ (∀ x : WifiRequest,
      WifiRequest.get_from_payload x.get_extn_payload = some x)
    ∧ (∀ (p : ExtnPayload) (x : WifiRequest),
        WifiRequest.get_from_payload p = some x → p = x.get_extn_payload)
    ∧ (∀ x : CapsRequest,
      CapsRequest.get_from_payload x.get_extn_payload = some x)
    ∧ (∀ (p : ExtnPayload) (x : CapsRequest),
        CapsRequest.get_from_payload p = some x → p = x.get_extn_payload)
    ∧ (∀ x : PermissionRequest,
      PermissionRequest.get_from_payload x.get_extn_payload = some x)
    ∧ (∀ (p : ExtnPayload) (x : PermissionRequest),
        PermissionRequest.get_from_payload p = some x →
        p = x.get_extn_payload)
    ∧ (∀ x : AdvertisingRequest,
      AdvertisingRequest.get_from_payload x.get_extn_payload = some x)
    ∧ (∀ (p : ExtnPayload) (x : AdvertisingRequest),
        AdvertisingRequest.get_from_payload p = some x →
        p = x.get_extn_payload) := by
  refine ⟨fun x => rfl, ?_, fun x => rfl, ?_, fun x => rfl, ?_,
    fun x => rfl, ?_, fun x => rfl, ?_⟩
  · intro p x hp
    cases p with
    | Request r =>
      cases r with
      | Device d =>
        cases d with
        | DeviceInfo q =>
          have hqx : q = x := Option.some.inj hp
          subst hqx
          rfl
        | Wifi q => exact Option.noConfusion hp
        | Browser q => exact Option.noConfusion hp
      | AuthorizedInfo q => exact Option.noConfusion hp
      | Permission q => exact Option.noConfusion hp
      | Advertising q => exact Option.noConfusion hp
    | Response r => exact Option.noConfusion hp
    | Event e => exact Option.noConfusion hp
  · intro p x hp
    cases p with
    | Request r =>
      cases r with
      | Device d =>
        cases d with
        | DeviceInfo q => exact Option.noConfusion hp
        | Wifi q =>
          have hqx : q = x := Option.some.inj hp
          subst hqx
          rfl
        | Browser q => exact Option.noConfusion hp
      | AuthorizedInfo q => exact Option.noConfusion hp
      | Permission q => exact Option.noConfusion hp
      | Advertising q => exact Option.noConfusion hp
    | Response r => exact Option.noConfusion hp
    | Event e => exact Option.noConfusion hp
  · intro p x hp
    cases p with
    | Request r =>
      cases r with
      | Device d =>
        cases d with
        | DeviceInfo q => exact Option.noConfusion hp
        | Wifi q => exact Option.noConfusion hp
        | Browser q => exact Option.noConfusion hp
      | AuthorizedInfo q =>
        have hqx : q = x := Option.some.inj hp
        subst hqx
        rfl
      | Permission q => exact Option.noConfusion hp
      | Advertising q => exact Option.noConfusion hp
    | Response r => exact Option.noConfusion hp
    | Event e => exact Option.noConfusion hp
  · intro p x hp
    cases p with
    | Request r =>
      cases r with
      | Device d =>
        cases d with
        | DeviceInfo q => exact Option.noConfusion hp
        | Wifi q => exact Option.noConfusion hp
        | Browser q => exact Option.noConfusion hp
      | AuthorizedInfo q => exact Option.noConfusion hp
      | Permission q =>
        have hqx : q = x := Option.some.inj hp
        subst hqx
        rfl
      | Advertising q => exact Option.noConfusion hp
    | Response r => exact Option.noConfusion hp
    | Event e => exact Option.noConfusion hp
  · intro p x hp
    cases p with
    | Request r =>
      cases r with
      | Device d =>
        cases d with
        | DeviceInfo q => exact Option.noConfusion hp
        | Wifi q => exact Option.noConfusion hp
        | Browser q => exact Option.noConfusion hp
      | AuthorizedInfo q => exact Option.noConfusion hp
      | Permission q => exact Option.noConfusion hp
      | Advertising q =>
        have hqx : q = x := Option.some.inj hp
        subst hqx
        rfl
    | Response r => exact Option.noConfusion hp
    | Event e => exact Option.noConfusion hp

/-- Claim C6 witness: concrete round-trips for each of the five contract
request types, a concrete tag-exclusivity consequence, and a differing
tag decoding to `None`. -/
theorem c6_payload_roundtrip_witness :
    DeviceInfoRequest.get_from_payload
        DeviceInfoRequest.GetTimezone.get_extn_payload = some .GetTimezone
    ∧ WifiRequest.get_from_payload
        (WifiRequest.Scan 30).get_extn_payload = some (.Scan 30)
    ∧ CapsRequest.get_from_payload
        (CapsRequest.Supported ["xrn:firebolt:capability:wifi:scan"]).get_extn_payload
      = some (.Supported ["xrn:firebolt:capability:wifi:scan"])
    ∧ PermissionRequest.get_from_payload
        (PermissionRequest.mk "app1" ⟨"i", "t", "a", "d"⟩).get_extn_payload
      = some (PermissionRequest.mk "app1" ⟨"i", "t", "a", "d"⟩)
    ∧ AdvertisingRequest.get_from_payload
        (AdvertisingRequest.ResetAdIdentifier ⟨"i", "t", "a", "d"⟩).get_extn_payload
      = some (.ResetAdIdentifier ⟨"i", "t", "a", "d"⟩)
    ∧ ExtnPayload.Request (.Device (.DeviceInfo .GetTimezone))
        = DeviceInfoRequest.GetTimezone.get_extn_payload
    ∧ WifiRequest.get_from_payload
        DeviceInfoRequest.GetTimezone.get_extn_payload = none :=
  ⟨c6_payload_roundtrip_and_tag_exclusive.1 .GetTimezone,
   c6_payload_roundtrip_and_tag_exclusive.2.2.1 (.Scan 30),
   c6_payload_roundtrip_and_tag_exclusive.2.2.2.2.1
     (.Supported ["xrn:firebolt:capability:wifi:scan"]),
   c6_payload_roundtrip_and_tag_exclusive.2.2.2.2.2.2.1
     (PermissionRequest.mk "app1" ⟨"i", "t", "a", "d"⟩),
   c6_payload_roundtrip_and_tag_exclusive.2.2.2.2.2.2.2.2.1
     (.ResetAdIdentifier ⟨"i", "t", "a", "d"⟩),
   c6_payload_roundtrip_and_tag_exclusive.2.1
     (ExtnPayload.Request (.Device (.DeviceInfo .GetTimezone)))
     .GetTimezone rfl,
   rfl⟩

/-! ## Claim theorems: pool bootstrap -/

/-- Claim C8: `ThunderPoolStep::setup` fails with `BootstrapError` without
attempting any connection when `pool_size < 2`, and when the controller
connection fails to open the step fails with `BootstrapError` after
attempting only the controller connection (size 1), emitting
`ExtnStatus::Error`. -/
theorem c8_pool_step_fails_fast (pool_size : Nat)
    (controllerOk clientOk : Bool) :
    (pool_size < 2 →
      ThunderPoolStep.setup pool_size controllerOk clientOk
        = ⟨.error .BootstrapError, [], []⟩)
    ∧ (2 ≤ pool_size → controllerOk = false →
      ThunderPoolStep.setup pool_size controllerOk clientOk
        = ⟨.error .BootstrapError, [1], [.Error]⟩) := by
  constructor
  · intro hlt
    simp [ThunderPoolStep.setup, hlt]
  · intro hge hco
    have hnlt : ¬ pool_size < 2 := not_lt.mpr hge
    simp [ThunderPoolStep.setup, hnlt, hco, ThunderClientPool.start]

/-- Claim C8 witness: pool size 1 aborts before any connection; with pool
size 2 and a failing controller connection the whole step fails with
`BootstrapError`. -/
theorem c8_pool_step_fails_fast_witness :
    ThunderPoolStep.setup 1 true true = ⟨.error .BootstrapError, [], []⟩
    ∧ ThunderPoolStep.setup 2 false true
      = ⟨.error .BootstrapError, [1], [.Error]⟩ :=
  ⟨(c8_pool_step_fails_fast 1 true true).1 (by decide),
   (c8_pool_step_fails_fast 2 false true).2 (by decide) rfl⟩

/-! ## Claim theorems: app library provider map -/

theorem mapGet_foldl_mapInsert_not_mem (caps : List String)
    (appId cap : String) (map : List (String × String))
    (h : ¬ cap ∈ caps) :
    mapGet (caps.foldl (fun mp c => mapInsert mp c appId) map) cap
      = mapGet map cap := by
  induction caps generalizing map with
  | nil => rfl
  | cons c rest ih =>
    have hc : c ≠ cap := by
      intro he
      exact h (by rw [he]; exact List.mem_cons_self _ _)
    rw [List.foldl_cons, ih _ (fun hm => h (List.mem_cons_of_mem _ hm)),
      mapGet_mapInsert_ne _ _ _ _ hc]

theorem mapGet_foldl_mapInsert_mem (caps : List String)
    (appId cap : String) (map : List (String × String))
    (h : cap ∈ caps) :
    mapGet (caps.foldl (fun mp c => mapInsert mp c appId) map) cap
      = some appId := by
  induction caps generalizing map with
  | nil => cases h
  | cons c rest ih =>
    by_cases hr : cap ∈ rest
    · rw [List.foldl_cons]
      exact ih _ hr
    · have hceq : c = cap := ((List.mem_cons.mp h).resolve_right hr).symm
      rw [List.foldl_cons, hceq,
        mapGet_foldl_mapInsert_not_mem rest appId cap _ hr,
        mapGet_mapInsert_self]

theorem providerStep_declares (map : List (String × String))
    (app : AppLibraryEntry) (cap : String)
    (h : declaresCap app cap = true) :
    mapGet (providerStep map app) cap = some app.app_id := by
  cases hman : app.manifest with
  | Embedded m =>
    simp only [declaresCap, hman] at h
    have hmem := of_decide_eq_true h
    simp only [providerStep, hman]
    by_cases hopt : cap ∈ m.capabilities.provided.optional
    · exact mapGet_foldl_mapInsert_mem _ _ _ _ hopt
    · have hreq := hmem.resolve_right hopt
      rw [mapGet_foldl_mapInsert_not_mem _ _ _ _ hopt]
      exact mapGet_foldl_mapInsert_mem _ _ _ _ hreq
  | Remote u =>
    simp only [declaresCap, hman] at h
    exact absurd h (by simp)
  | Local u =>
    simp only [declaresCap, hman] at h
    exact absurd h (by simp)

theorem providerStep_not_declares (map : List (String × String))
    (app : AppLibraryEntry) (cap : String)
    (h : declaresCap app cap = false) :
    mapGet (providerStep map app) cap = mapGet map cap := by
  cases hman : app.manifest with
  | Embedded m =>
    simp only [declaresCap, hman] at h
    have hnot := of_decide_eq_false h
    obtain ⟨h1, h2⟩ := not_or.mp hnot
    simp only [providerStep, hman]
    rw [mapGet_foldl_mapInsert_not_mem _ _ _ _ h2,
      mapGet_foldl_mapInsert_not_mem _ _ _ _ h1]
  | Remote u => simp only [providerStep, hman]
  | Local u => simp only [providerStep, hman]

theorem foldl_providerStep_not_declares (apps : List AppLibraryEntry)
    (cap : String) (m : List (String × String))
    (h : ∀ b ∈ apps, declaresCap b cap = false) :
    mapGet (apps.foldl providerStep m) cap = mapGet m cap := by
  induction apps generalizing m with
  | nil => rfl
  | cons a rest ih =>
    rw [List.foldl_cons,
      ih _ (fun b hb => h b (List.mem_cons_of_mem _ hb)),
      providerStep_not_declares _ _ _ (h a (List.mem_cons_self _ _))]

/-- Claim C9: `generate_provider_map` inserts capabilities app by app, in
list order, with `HashMap::insert` overwrite semantics, so when several
apps declare the same provided capability (required or optional) the
binding is to the app that appears later in the default-apps list;
`get_provider` consequently returns the last declaring app's id. -/
theorem c9_last_declaring_app_wins (pre suffix : List AppLibraryEntry)
    (a : AppLibraryEntry) (cap : String)
    (hd : declaresCap a cap = true)
    (hs : ∀ b ∈ suffix, declaresCap b cap = false) :
    AppLibrary.get_provider (AppLibraryState.new (pre ++ a :: suffix)) cap
      = some a.app_id := by
  unfold AppLibrary.get_provider AppLibraryState.new
    AppLibrary.generate_provider_map
  rw [List.foldl_append, List.foldl_cons,
    foldl_providerStep_not_declares _ _ _ hs,
    providerStep_declares _ _ _ hd]

/-- Claim C9 witness: `"app1"` provides `"cap:foo"` as required,
`"app2"` later provides it as optional; the provider map binds the
capability to `"app2"`. -/
theorem c9_last_declaring_app_wins_witness :
    AppLibrary.get_provider (AppLibraryState.new
      [⟨"app1", .Embedded ⟨⟨⟨["cap:foo"], []⟩⟩⟩, .Inactive⟩,
       ⟨"app2", .Embedded ⟨⟨⟨[], ["cap:foo"]⟩⟩⟩, .Foreground⟩]) "cap:foo"
      = some "app2" :=
  c9_last_declaring_app_wins
    [⟨"app1", .Embedded ⟨⟨⟨["cap:foo"], []⟩⟩⟩, .Inactive⟩] []
    ⟨"app2", .Embedded ⟨⟨⟨[], ["cap:foo"]⟩⟩⟩, .Foreground⟩ "cap:foo"
    (by decide) (fun b hb => absurd hb (List.not_mem_nil b))

end Ripple
